import Mathlib

/-! ## The ledger header `src/Ledger.h` and the amount type `XRPAmount.h`

A shallow embedding of the inline code of `Ledger.h`: the two enumerations
(`LedgerStateParms`, `Ledger::TransResult`), the bitmask operators on
`LedgerStateParms`, the data members of `class Ledger` and its four inline
lifecycle members `setClosed`, `setAccepted`, `isClosed`, `isAccepted`.

`Ledger::applyTransaction` is only declared in the header; its body is not part
of the sources at hand, so it is modelled from the specification (section 4.3)
and marked as such.

Of `src/ripple/basics/XRPAmount.h` the embedding holds `class XRPAmount` with
its converting constructor, `operator*`, `operator bool`, `signum`, `drops`,
`json`, and the free function `mulRatio`.  A `std::int64_t` is an integer of
the range `int64Min .. int64Max`; a conversion into it reduces modulo `2^64`,
and a product of two of them has a value only when it fits the range.
-/

/-! ## `enum LedgerStateParms` and its operators -/

/-- A value of the unscoped enumeration `LedgerStateParms`, kept as the integer
that `static_cast<int>` yields.  Every enumerator is non-negative, and so is
every value that `operator|` and `operator&` build from them, hence `Nat`. -/
structure LedgerStateParms where
  val : Nat
deriving DecidableEq, Repr

/-- Enumerator `lepCREATE` ("Create if not present"): first in the list and
without initialiser, so its value is 0. -/
def lepCREATE : LedgerStateParms := ⟨0⟩

/-- Enumerator `lepOKAY` ("success"): value 1. -/
def lepOKAY : LedgerStateParms := ⟨1⟩

/-- Enumerator `lepMISSING` ("No node in that slot"): value 2. -/
def lepMISSING : LedgerStateParms := ⟨2⟩

/-- Enumerator `lepWRONGTYPE` ("Node of different type there"): value 3. -/
def lepWRONGTYPE : LedgerStateParms := ⟨3⟩

/-- Enumerator `lepCREATED` ("Node was created"): value 4. -/
def lepCREATED : LedgerStateParms := ⟨4⟩

/-- Enumerator `lepERROR` ("error"): value 5. -/
def lepERROR : LedgerStateParms := ⟨5⟩

/-- The `operator|` of `Ledger.h`:
`static_cast<LedgerStateParms>(static_cast<int>(l1) | static_cast<int>(l2))`. -/
def LedgerStateParms.or (l1 l2 : LedgerStateParms) : LedgerStateParms :=
  ⟨l1.val ||| l2.val⟩

/-- The `operator&` of `Ledger.h`:
`static_cast<LedgerStateParms>(static_cast<int>(l1) & static_cast<int>(l2))`. -/
def LedgerStateParms.and (l1 l2 : LedgerStateParms) : LedgerStateParms :=
  ⟨l1.val &&& l2.val⟩

instance : OrOp LedgerStateParms := ⟨LedgerStateParms.or⟩

instance : AndOp LedgerStateParms := ⟨LedgerStateParms.and⟩

/-- The result of `operator|` over a non-empty list of flags, left to right;
the empty list has no flag set. -/
def LedgerStateParms.orAll : List LedgerStateParms → LedgerStateParms
  | [] => ⟨0⟩
  | p :: ps => ps.foldl LedgerStateParms.or p

/-! ## `enum Ledger::TransResult` -/

/-- The enumerators of `Ledger::TransResult`, in declaration order. -/
inductive TransResult where
  | TR_ERROR
  | TR_SUCCESS
  | TR_NOTFOUND
  | TR_ALREADY
  | TR_BADTRANS
  | TR_BADACCT
  | TR_INSUFF
  | TR_PASTASEQ
  | TR_PREASEQ
  | TR_BADLSEQ
  | TR_TOOSMALL
deriving DecidableEq, Repr, Fintype

/-- The integer code each enumerator is initialised with in `Ledger.h`. -/
def TransResult.code : TransResult → Int
  | .TR_ERROR => -1
  | .TR_SUCCESS => 0
  | .TR_NOTFOUND => 1
  | .TR_ALREADY => 2
  | .TR_BADTRANS => 3
  | .TR_BADACCT => 4
  | .TR_INSUFF => 5
  | .TR_PASTASEQ => 6
  | .TR_PREASEQ => 7
  | .TR_BADLSEQ => 8
  | .TR_TOOSMALL => 9

/-! ## Collaborating types that `Ledger.h` only includes -/

/-- Modelled from the spec: `AccountState` (`AccountState.h` is not among the
sources).  Section 3 gives it an account identifier, a balance in drops and a
per-account sequence number; the remaining metadata is opaque to the ledger. -/
structure AccountState where
  accountID : Nat
  balance : Nat
  seq : Nat
deriving DecidableEq, Repr

/-- Modelled from the spec: `Transaction` (`Transaction.h` is not among the
sources).  Section 3 gives it a content hash, a source account, a destination,
the sequence number claimed by the sender, a fee and a payload, here the amount
of a payment.  `wellFormed` is the verdict of the external decoding and
signature check, which the ledger uses as a black box. -/
structure Transaction where
  id : Nat
  wellFormed : Bool
  fromAccount : Nat
  toAccount : Nat
  fromAccountSeq : Nat
  amount : Nat
  fee : Nat
deriving DecidableEq, Repr

/-! ## `class Ledger` -/

/-- The data members of `class Ledger`.  The four `uint256` hashes, the two
`uint64` and the `uint32` are numbers, the four flags are the `bool` members.
The two `SHAMap::pointer` members are kept by their contents (`SHAMap.h` is not
among the sources): the leaves of the transaction tree and of the account-state
tree.  `mLock` guards concurrent access and has no sequential content. -/
structure Ledger where
  mHash : Nat
  mParentHash : Nat
  mTransHash : Nat
  mAccountHash : Nat
  mFeeHeld : Nat
  mTimeStamp : Nat
  mLedgerSeq : Nat
  mClosed : Bool
  mValidHash : Bool
  mAccepted : Bool
  mImmutable : Bool
  mTransactionMap : List Transaction
  mAccountStateMap : List AccountState
deriving DecidableEq, Repr

/-- Member `void setClosed() { mClosed=true; }`. -/
def Ledger.setClosed (l : Ledger) : Ledger :=
  { l with mClosed := true }

/-- Member `void setAccepted() { mAccepted=true; }`. -/
def Ledger.setAccepted (l : Ledger) : Ledger :=
  { l with mAccepted := true }

/-- Member `bool isClosed() { return mClosed; }`. -/
def Ledger.isClosed (l : Ledger) : Bool :=
  l.mClosed

/-- Member `bool isAccepted() { return mAccepted; }`. -/
def Ledger.isAccepted (l : Ledger) : Bool :=
  l.mAccepted

/-- Modelled from the spec: the contract violations of section 7, which abort
the operation with a distinct error (`Ledger.h` declares no exception type). -/
inductive LedgerFault where
  | mutateImmutable
  | alreadyClosed
deriving DecidableEq, Repr

/-- The outcome of the call `l.setClosed()`.  The body of `setClosed` is the
single assignment `mClosed=true`: it holds no `throw`, no `assert` and no test
of `mClosed`, so the call completes normally on every ledger. -/
def Ledger.setClosedCall (l : Ledger) : Except LedgerFault Ledger :=
  Except.ok l.setClosed

/-- One of the two lifecycle calls a client can make on a ledger. -/
inductive LifecycleCall where
  | setClosed
  | setAccepted
deriving DecidableEq, Repr

/-- The effect of one lifecycle call. -/
def LifecycleCall.run : LifecycleCall → Ledger → Ledger
  | .setClosed, l => l.setClosed
  | .setAccepted, l => l.setAccepted

/-- The effect of a sequence of lifecycle calls, made one after the other. -/
def Ledger.runCalls (l : Ledger) : List LifecycleCall → Ledger
  | [] => l
  | c :: cs => (c.run l).runCalls cs

/-- An open ledger with no flag set and empty trees, a concrete state for the
lifecycle calls. -/
def Ledger.blank : Ledger :=
  { mHash := 0, mParentHash := 0, mTransHash := 0, mAccountHash := 0,
    mFeeHeld := 0, mTimeStamp := 0, mLedgerSeq := 0,
    mClosed := false, mValidHash := false, mAccepted := false,
    mImmutable := false, mTransactionMap := [], mAccountStateMap := [] }

/-! ## Transaction application (declared in `Ledger.h`, defined elsewhere) -/

/-- Modelled from the spec: `Ledger::hasTransaction(const uint256&)`, declared
in `Ledger.h` and defined outside the sources: whether the transaction tree
holds a leaf keyed by the given content hash. -/
def Ledger.hasTransaction (l : Ledger) (transID : Nat) : Bool :=
  l.mTransactionMap.any (fun t => t.id == transID)

/-- Modelled from the spec: `Ledger::getAccountState`, declared in `Ledger.h`
and defined outside the sources: the account-state leaf of an account, if the
account-state tree holds one. -/
def Ledger.getAccountState (l : Ledger) (acctID : Nat) : Option AccountState :=
  l.mAccountStateMap.find? (fun a => a.accountID == acctID)

/-- Modelled from the spec: writing one account-state leaf into the tree
(`addAccountState` / `updateAccountState`, declared only): the leaf of that
account is replaced, or added when the account has none. -/
def putAccountState (m : List AccountState) (s : AccountState) : List AccountState :=
  if m.any (fun a => a.accountID == s.accountID) then
    m.map (fun a => if a.accountID == s.accountID then s else a)
  else
    m ++ [s]

/-- Modelled from the spec: the mutation of outcome 7 (`Success`) of section
4.3.  The source account pays amount and fee and its sequence number goes up by
one; the destination account, created on first reference, receives the amount;
the fee goes to the fee-held accumulator; the transaction is inserted into the
transaction tree; the content changed, so the hash is no longer valid. -/
def Ledger.commit (l : Ledger) (src : AccountState) (trans : Transaction) : Ledger :=
  let debited : AccountState :=
    { src with balance := src.balance - (trans.amount + trans.fee), seq := src.seq + 1 }
  let m1 := putAccountState l.mAccountStateMap debited
  let credited : AccountState :=
    match m1.find? (fun a => a.accountID == trans.toAccount) with
    | some dst => { dst with balance := dst.balance + trans.amount }
    | none => { accountID := trans.toAccount, balance := trans.amount, seq := 0 }
  { l with
    mAccountStateMap := putAccountState m1 credited
    mTransactionMap := l.mTransactionMap ++ [trans]
    mFeeHeld := l.mFeeHeld + trans.fee
    mValidHash := false }

/-- Modelled from the spec: `Ledger::applyTransaction`, declared in `Ledger.h`
(line 123) and defined outside the sources.  Section 4.3 gives the outcomes "in
the order checks are performed", and the checks are made in that order:
`BadTransaction`, `BadAccount`, `PastSequence` (claimed sequence below the
current one), `PreSequence` (claimed sequence above current+1), `Insufficient`
(balance below amount + fee), `TooSmall` (amount below the fee), each leaving
the ledger as it was; a transaction that passes these six pre-conditions is
committed (`Success`) unless its hash is already in the transaction tree, which
is the no-op `Already`.  Sections 3, 4.4 and 7: the write is refused with a
fault, not with an outcome of the enumeration, once the ledger is closed,
accepted or immutable. -/
def Ledger.applyTransaction (l : Ledger) (trans : Transaction) :
    Except LedgerFault (TransResult × Ledger) :=
  if !trans.wellFormed then
    Except.ok (TransResult.TR_BADTRANS, l)
  else
    match l.getAccountState trans.fromAccount with
    | none => Except.ok (TransResult.TR_BADACCT, l)
    | some src =>
      if trans.fromAccountSeq < src.seq then
        Except.ok (TransResult.TR_PASTASEQ, l)
      else if src.seq + 1 < trans.fromAccountSeq then
        Except.ok (TransResult.TR_PREASEQ, l)
      else if src.balance < trans.amount + trans.fee then
        Except.ok (TransResult.TR_INSUFF, l)
      else if trans.amount < trans.fee then
        Except.ok (TransResult.TR_TOOSMALL, l)
      else if l.hasTransaction trans.id then
        Except.ok (TransResult.TR_ALREADY, l)
      else if l.mClosed || l.mAccepted || l.mImmutable then
        Except.error LedgerFault.mutateImmutable
      else
        Except.ok (TransResult.TR_SUCCESS, l.commit src trans)

/-- A payment of 60 drops without fee from the master account 0 to account 1,
claiming sequence 1. -/
def payment60 : Transaction :=
  { id := 78, wellFormed := true, fromAccount := 0, toAccount := 1,
    fromAccountSeq := 1, amount := 60, fee := 0 }

/-- The ledger that `payment60` leaves when it is applied to the bootstrap
ledger with a master balance of 100: the master account holds 40 drops at
sequence 1, account 1 holds 60 drops, and the transaction tree holds the
payment. -/
def paidLedger : Ledger :=
  { Ledger.blank with
    mAccountStateMap :=
      [{ accountID := 0, balance := 40, seq := 1 },
       { accountID := 1, balance := 60, seq := 0 }]
    mTransactionMap := [payment60] }

/-! ## `class XRPAmount` (`src/ripple/basics/XRPAmount.h`) -/

/-- The value of a signed integer type of `w` bits that is congruent to `x`
modulo `2^w`: what a `static_cast` of an integral value to that type yields. -/
def wrapSigned (w : Nat) (x : Int) : Int :=
  (x + 2 ^ (w - 1)) % 2 ^ w - 2 ^ (w - 1)

/-- The conversion `static_cast<std::int64_t>` of an integral value: the value
reduced modulo `2^64` into the range of the type. -/
def wrapInt64 (x : Int) : Int :=
  wrapSigned 64 x

/-- The constant `std::numeric_limits<XRPAmount::value_type>::min ()`. -/
def int64Min : Int := -2 ^ 63

/-- The constant `std::numeric_limits<XRPAmount::value_type>::max ()`. -/
def int64Max : Int := 2 ^ 63 - 1

/-- An `XRPAmount`: the one data member `value_type drops_`, with
`value_type = std::int64_t`. -/
structure XRPAmount where
  drops_ : Int
deriving DecidableEq, Repr

/-- The values a `std::int64_t` member can hold. -/
def XRPAmount.inRange (a : XRPAmount) : Prop :=
  int64Min ≤ a.drops_ ∧ a.drops_ ≤ int64Max

instance (a : XRPAmount) : Decidable a.inRange :=
  inferInstanceAs (Decidable (_ ∧ _))

/-- Member `drops ()`: `return drops_;`. -/
def XRPAmount.drops (a : XRPAmount) : Int :=
  a.drops_

/-- The converting constructor `template <class Other> XRPAmount (Other drops)`:
`drops_ (static_cast<value_type> (drops))`, for a value of any integral type
`Other`. -/
def XRPAmount.ofIntegral (drops : Int) : XRPAmount :=
  ⟨wrapInt64 drops⟩

/-- Member `operator*(value_type const& rhs)`: `return { drops_ * rhs };`, a
product of two `std::int64_t`.  The operator makes no range test, and a signed
product that does not fit `std::int64_t` is undefined behaviour: the call
yields a value only when the mathematical product is in the range, and `none`
stands for a call whose result the language leaves undefined. -/
def XRPAmount.mul (a : XRPAmount) (rhs : Int) : Option XRPAmount :=
  if int64Min ≤ a.drops_ * rhs ∧ a.drops_ * rhs ≤ int64Max then
    some ⟨a.drops_ * rhs⟩
  else
    none

/-- The friend `operator*(value_type lhs, XRPAmount const& rhs)`:
`return rhs * lhs;`. -/
def XRPAmount.mulLeft (lhs : Int) (rhs : XRPAmount) : Option XRPAmount :=
  rhs.mul lhs

/-- Member `explicit operator bool()`: `return drops_ != 0;`. -/
def XRPAmount.toBool (a : XRPAmount) : Bool :=
  a.drops_ != 0

/-- Member `signum()`: `return (drops_ < 0) ? -1 : (drops_ ? 1 : 0);`. -/
def XRPAmount.signum (a : XRPAmount) : Int :=
  if a.drops_ < 0 then -1 else (if a.drops_ != 0 then 1 else 0)

/-- The constant `std::numeric_limits<Json::Int>::min()`, for a signed
`Json::Int` of `w` bits (`json_value.h`, which fixes `Json::Int`, is not among
the sources, so the width is a parameter). -/
def jsonIntMin (w : Nat) : Int := -2 ^ (w - 1)

/-- The constant `std::numeric_limits<Json::Int>::max()`, for a signed
`Json::Int` of `w` bits. -/
def jsonIntMax (w : Nat) : Int := 2 ^ (w - 1) - 1

/-- Member `json ()`, for a `Json::Int` of `w` bits; the `Json::Value` returned
is kept as the integer it is built from:
`if (drops_ < min) return min; if (drops_ > max) return max;`
`return static_cast<Json::Int>(drops_);`. -/
def XRPAmount.json (w : Nat) (a : XRPAmount) : Int :=
  if a.drops_ < jsonIntMin w then jsonIntMin w
  else if a.drops_ > jsonIntMax w then jsonIntMax w
  else wrapSigned w a.drops_

/-- The exceptions `mulRatio` throws: `std::runtime_error ("division by zero")`,
`std::overflow_error ("XRP mulRatio overflow")` and
`std::overflow_error ("XRP mulRatio underflow")`. -/
inductive MulRatioError where
  | divisionByZero
  | overflow
  | underflow
deriving DecidableEq, Repr

/-- Whether the exception is a `std::overflow_error`. -/
def MulRatioError.isOverflowError : MulRatioError → Bool
  | .divisionByZero => false
  | .overflow => true
  | .underflow => true

/-- A value of `boost::multiprecision::int128_t`, a sign and a magnitude of 128
bits without overflow check: the magnitude of a result is reduced modulo
`2^128`. -/
def int128 (x : Int) : Int :=
  x.sign * ((x.natAbs % 2 ^ 128 : Nat) : Int)

/-- The function `mulRatio (amt, num, den, roundUp)`, `num` and `den` being
`std::uint32_t`.  The quotient `m / den` and the remainder `m % den` of
`int128_t` truncate toward zero, and a quotient is never larger in magnitude
than its dividend.  When the two range tests have passed, `convert_to` yields
`r` unchanged. -/
def mulRatio (amt : XRPAmount) (num den : Nat) (roundUp : Bool) :
    Except MulRatioError XRPAmount :=
  if den = 0 then
    Except.error MulRatioError.divisionByZero
  else
    let amt128 : Int := int128 amt.drops
    let neg : Bool := decide (amt.drops < 0)
    let m : Int := int128 (amt128 * (num : Int))
    let r0 : Int := Int.tdiv m (den : Int)
    let r1 : Int :=
      if Int.tmod m (den : Int) ≠ 0 then
        let ra : Int := if !neg && roundUp then int128 (r0 + 1) else r0
        if neg && !roundUp then int128 (ra - 1) else ra
      else r0
    if r1 > int64Max then
      Except.error MulRatioError.overflow
    else if r1 < int64Min then
      Except.error MulRatioError.underflow
    else
      Except.ok ⟨r1⟩

/-- The exact rational `drops * num / den`, rounded toward positive infinity
when `roundUp` is set and toward negative infinity when it is not: the value
the description of `mulRatio` asks for. -/
def roundedRatio (drops : Int) (num den : Nat) (roundUp : Bool) : Int :=
  if roundUp then Int.ceil (((drops * (num : Int) : Int) : ℚ) / ((den : Nat) : ℚ))
  else Int.floor (((drops * (num : Int) : Int) : ℚ) / ((den : Nat) : ℚ))

/-! ## Lifecycle flags: helper lemmas -/

theorem LifecycleCall.run_mClosed (c : LifecycleCall) (l : Ledger) :
    (c.run l).mClosed = (l.mClosed || decide (c = LifecycleCall.setClosed)) := by
  cases c <;> simp [LifecycleCall.run, Ledger.setClosed, Ledger.setAccepted]

theorem LifecycleCall.run_mAccepted (c : LifecycleCall) (l : Ledger) :
    (c.run l).mAccepted = (l.mAccepted || decide (c = LifecycleCall.setAccepted)) := by
  cases c <;> simp [LifecycleCall.run, Ledger.setClosed, Ledger.setAccepted]

theorem Ledger.runCalls_mClosed (cs : List LifecycleCall) (l : Ledger) :
    (l.runCalls cs).mClosed = (l.mClosed || decide (LifecycleCall.setClosed ∈ cs)) := by
  induction cs generalizing l with
  | nil => simp [Ledger.runCalls]
  | cons c cs ih =>
    rw [Ledger.runCalls, ih, LifecycleCall.run_mClosed]
    cases c <;> simp [Bool.or_assoc]

theorem Ledger.runCalls_mAccepted (cs : List LifecycleCall) (l : Ledger) :
    (l.runCalls cs).mAccepted = (l.mAccepted || decide (LifecycleCall.setAccepted ∈ cs)) := by
  induction cs generalizing l with
  | nil => simp [Ledger.runCalls]
  | cons c cs ih =>
    rw [Ledger.runCalls, ih, LifecycleCall.run_mAccepted]
    cases c <;> simp [Bool.or_assoc]

/-! ## C1: `setAccepted` and the immutable flag -/

/-- C1, as stated, fails: on the open ledger `Ledger.blank`, whose `mImmutable`
is unset, `setAccepted()` sets the accepted flag and `mImmutable` is still
unset afterwards. -/
theorem C1_setAccepted_leaves_mImmutable_unset :
    Ledger.blank.setAccepted.isAccepted = true ∧
      Ledger.blank.setAccepted.mImmutable = false :=
  ⟨rfl, rfl⟩

/-- C1, amended: for every ledger state, after `setAccepted()` the accepted flag
is set, and `mImmutable`, `mClosed` and `mValidHash` hold the values they had
before the call; the accepted flag is the only member that can differ from the
state before the call. -/
theorem C1_setAccepted_sets_only_mAccepted (l : Ledger) :
    l.setAccepted.isAccepted = true ∧
      l.setAccepted.mImmutable = l.mImmutable ∧
      l.setAccepted.mClosed = l.mClosed ∧
      l.setAccepted.mValidHash = l.mValidHash ∧
      { l.setAccepted with mAccepted := l.mAccepted } = l :=
  ⟨rfl, rfl, rfl, rfl, rfl⟩

/-! ## C2: closing a ledger that is already closed -/

/-- C2, as stated, fails: it is not the case that `setClosed()` ends in an
error on every closed ledger; on the closed ledger `Ledger.blank.setClosed` the
call returns normally. -/
theorem C2_setClosed_on_closed_does_not_fail :
    ¬ ∀ l : Ledger, l.isClosed = true → ∃ e, l.setClosedCall = Except.error e := by
  intro h
  obtain ⟨e, he⟩ := h Ledger.blank.setClosed rfl
  simp [Ledger.setClosedCall] at he

/-- C2, amended: for every ledger state in which `isClosed()` is true,
`setClosed()` returns normally and leaves the ledger exactly as it was. -/
theorem C2_setClosed_on_closed_is_noop (l : Ledger) (h : l.isClosed = true) :
    l.setClosedCall = Except.ok l := by
  cases l
  simp only [Ledger.isClosed] at h
  simp [Ledger.setClosedCall, Ledger.setClosed, h]

/-- C2, amended, at the closed ledger `Ledger.blank.setClosed`. -/
theorem C2_setClosed_on_closed_is_noop_witness :
    Ledger.blank.setClosed.isClosed = true ∧
      Ledger.blank.setClosed.setClosedCall = Except.ok Ledger.blank.setClosed :=
  ⟨rfl, C2_setClosed_on_closed_is_noop Ledger.blank.setClosed rfl⟩

/-! ## C3: accepted without closed -/

/-- C3, as stated, fails: the single call `setAccepted()` on the open ledger
`Ledger.blank` reaches a state in which `isAccepted()` is true and `isClosed()`
is false. -/
theorem C3_accepted_reachable_without_closed :
    Ledger.blank.isClosed = false ∧ Ledger.blank.isAccepted = false ∧
      (Ledger.blank.runCalls [LifecycleCall.setAccepted]).isAccepted = true ∧
      (Ledger.blank.runCalls [LifecycleCall.setAccepted]).isClosed = false :=
  ⟨rfl, rfl, rfl, rfl⟩

/-- C3, amended: in the state reached from an open ledger (closed = false,
accepted = false) by a sequence of `setClosed()` and `setAccepted()` calls,
`isAccepted()` implies `isClosed()` exactly when the sequence holds a
`setClosed()` call whenever it holds a `setAccepted()` call. -/
theorem C3_accepted_implies_closed_iff (l : Ledger) (cs : List LifecycleCall)
    (hc : l.isClosed = false) (ha : l.isAccepted = false) :
    ((l.runCalls cs).isAccepted = true → (l.runCalls cs).isClosed = true) ↔
      (LifecycleCall.setAccepted ∈ cs → LifecycleCall.setClosed ∈ cs) := by
  simp only [Ledger.isClosed, Ledger.isAccepted] at hc ha ⊢
  rw [Ledger.runCalls_mClosed, Ledger.runCalls_mAccepted, hc, ha]
  simp

/-- C3, amended, at the open ledger `Ledger.blank` and the calls
`setClosed(); setAccepted()`: the sequence holds a `setClosed()`, and accepted
implies closed in the state reached. -/
theorem C3_accepted_implies_closed_iff_witness :
    (LifecycleCall.setAccepted ∈ [LifecycleCall.setClosed, LifecycleCall.setAccepted] →
        LifecycleCall.setClosed ∈ [LifecycleCall.setClosed, LifecycleCall.setAccepted]) ∧
      ((Ledger.blank.runCalls
          [LifecycleCall.setClosed, LifecycleCall.setAccepted]).isAccepted = true →
        (Ledger.blank.runCalls
          [LifecycleCall.setClosed, LifecycleCall.setAccepted]).isClosed = true) :=
  ⟨by decide,
   (C3_accepted_implies_closed_iff Ledger.blank
      [LifecycleCall.setClosed, LifecycleCall.setAccepted] rfl rfl).mpr (by decide)⟩

/-! ## C9 and C10: `setClosed` is idempotent, the flags never revert -/

/-- C9: for every ledger state `isClosed()` is true right after `setClosed()`,
and calling `setClosed()` twice leaves the same state as calling it once. -/
theorem C9_setClosed_isClosed_idempotent (l : Ledger) :
    l.setClosed.isClosed = true ∧ l.setClosed.setClosed = l.setClosed :=
  ⟨rfl, rfl⟩

/-- C10: for every ledger state and every sequence of `setClosed()` and
`setAccepted()` calls, `isAccepted()` true before the sequence is true after
it, and `isClosed()` true before the sequence is true after it. -/
theorem C10_accepted_closed_never_revert (l : Ledger) (cs : List LifecycleCall) :
    (l.isAccepted = true → (l.runCalls cs).isAccepted = true) ∧
      (l.isClosed = true → (l.runCalls cs).isClosed = true) := by
  simp only [Ledger.isClosed, Ledger.isAccepted]
  rw [Ledger.runCalls_mClosed, Ledger.runCalls_mAccepted]
  constructor <;> intro h <;> simp [h]

/-- C10 at the accepted and closed ledger `Ledger.blank.setClosed.setAccepted`
and the calls `setAccepted(); setClosed(); setAccepted()`. -/
theorem C10_accepted_closed_never_revert_witness :
    Ledger.blank.setClosed.setAccepted.isAccepted = true ∧
      Ledger.blank.setClosed.setAccepted.isClosed = true ∧
      (Ledger.blank.setClosed.setAccepted.runCalls
        [LifecycleCall.setAccepted, LifecycleCall.setClosed,
          LifecycleCall.setAccepted]).isAccepted = true ∧
      (Ledger.blank.setClosed.setAccepted.runCalls
        [LifecycleCall.setAccepted, LifecycleCall.setClosed,
          LifecycleCall.setAccepted]).isClosed = true :=
  ⟨rfl, rfl,
   (C10_accepted_closed_never_revert Ledger.blank.setClosed.setAccepted
      [LifecycleCall.setAccepted, LifecycleCall.setClosed,
        LifecycleCall.setAccepted]).1 rfl,
   (C10_accepted_closed_never_revert Ledger.blank.setClosed.setAccepted
      [LifecycleCall.setAccepted, LifecycleCall.setClosed,
        LifecycleCall.setAccepted]).2 rfl⟩

/-! ## C6 and C7: the `LedgerStateParms` flags under `|` and `&` -/

/-- C6 on the code: `lepCREATE` has the value 0, so for every parms value `p`
both `(p | lepCREATE) & lepCREATE` and `p & lepCREATE` are zero; the test
`parms & lepCREATE` gives the same answer with and without the flag. -/
theorem C6_lepCREATE_test_is_always_zero (p : LedgerStateParms) :
    ((p ||| lepCREATE) &&& lepCREATE).val = 0 ∧ (p &&& lepCREATE).val = 0 :=
  ⟨Nat.and_zero _, Nat.and_zero _⟩

/-- C7 on the code: the flag sets {`lepCREATED`, `lepOKAY`} and {`lepERROR`}
combine to the same value 5, and {`lepOKAY`, `lepMISSING`} and
{`lepWRONGTYPE`} combine to the same value 3. -/
theorem C7_output_flag_sets_collide :
    LedgerStateParms.orAll [lepCREATED, lepOKAY] = LedgerStateParms.orAll [lepERROR] ∧
      (lepCREATED ||| lepOKAY) = lepERROR ∧
      LedgerStateParms.orAll [lepOKAY, lepMISSING] =
        LedgerStateParms.orAll [lepWRONGTYPE] ∧
      (lepOKAY ||| lepMISSING) = lepWRONGTYPE := by
  decide

/-! ## C8: the enumerators of `TransResult` -/

/-- C8, as stated, fails: `TransResult` does not have exactly nine
enumerators. -/
theorem C8_TransResult_not_nine_enumerators : Fintype.card TransResult ≠ 9 := by
  decide

/-- C8, amended: `TransResult` has exactly eleven enumerators, with the codes
`TR_ERROR` = -1, `TR_SUCCESS` = 0, `TR_NOTFOUND` = 1, `TR_ALREADY` = 2,
`TR_BADTRANS` = 3, `TR_BADACCT` = 4, `TR_INSUFF` = 5, `TR_PASTASEQ` = 6,
`TR_PREASEQ` = 7, `TR_BADLSEQ` = 8, `TR_TOOSMALL` = 9; their integer codes are
pairwise distinct, and the code of `TR_ALREADY` differs from the code of
`TR_SUCCESS`. -/
theorem C8_TransResult_eleven_distinct_codes :
    Fintype.card TransResult = 11 ∧
      (TransResult.code TransResult.TR_ERROR = -1 ∧
        TransResult.code TransResult.TR_SUCCESS = 0 ∧
        TransResult.code TransResult.TR_NOTFOUND = 1 ∧
        TransResult.code TransResult.TR_ALREADY = 2 ∧
        TransResult.code TransResult.TR_BADTRANS = 3 ∧
        TransResult.code TransResult.TR_BADACCT = 4 ∧
        TransResult.code TransResult.TR_INSUFF = 5 ∧
        TransResult.code TransResult.TR_PASTASEQ = 6 ∧
        TransResult.code TransResult.TR_PREASEQ = 7 ∧
        TransResult.code TransResult.TR_BADLSEQ = 8 ∧
        TransResult.code TransResult.TR_TOOSMALL = 9) ∧
      Function.Injective TransResult.code ∧
      TransResult.code TransResult.TR_ALREADY ≠
        TransResult.code TransResult.TR_SUCCESS := by
  refine ⟨by decide,
    ⟨rfl, rfl, rfl, rfl, rfl, rfl, rfl, rfl, rfl, rfl, rfl⟩, ?_, by decide⟩
  intro a b h
  cases a <;> cases b <;> first | rfl | (exact absurd h (by decide))

/-! ## Transaction application: helper lemmas -/

/-- C5: for every ledger holding an account with balance B and sequence S,
`applyTransaction` on a transaction from that account (one that decodes and
whose signature verifies, with that account as its source) returns
`TR_PREASEQ` when it claims sequence S+2, `TR_PASTASEQ` when it claims S-1, and
`TR_INSUFF` when it claims S with an amount greater than B, and in each of
these cases the ledger state is unchanged. -/
theorem C5_precondition_failures (l : Ledger) (t : Transaction)
    (a : AccountState)
    (hacct : l.getAccountState t.fromAccount = some a)
    (hwf : t.wellFormed = true) :
    (t.fromAccountSeq = a.seq + 2 →
        l.applyTransaction t = Except.ok (TransResult.TR_PREASEQ, l)) ∧
      (t.fromAccountSeq + 1 = a.seq →
        l.applyTransaction t = Except.ok (TransResult.TR_PASTASEQ, l)) ∧
      (t.fromAccountSeq = a.seq → a.balance < t.amount →
        l.applyTransaction t = Except.ok (TransResult.TR_INSUFF, l)) := by
  refine ⟨?_, ?_, ?_⟩
  · intro h
    have h1 : ¬ t.fromAccountSeq < a.seq := by omega
    have h2 : a.seq + 1 < t.fromAccountSeq := by omega
    simp [Ledger.applyTransaction, hwf, hacct, h1, h2]
  · intro h
    have h1 : t.fromAccountSeq < a.seq := by omega
    simp [Ledger.applyTransaction, hwf, hacct, h1]
  · intro h hb
    have h1 : ¬ t.fromAccountSeq < a.seq := by omega
    have h2 : ¬ a.seq + 1 < t.fromAccountSeq := by omega
    have h3 : a.balance < t.amount + t.fee := by omega
    simp [Ledger.applyTransaction, hwf, hacct, h1, h2, h3]

/-- C5 on `paidLedger` (master account: balance 40, sequence 1): a payment
claiming sequence 3, a payment claiming sequence 0, and `payment60`, which
claims sequence 1 for 60 drops. -/
theorem C5_precondition_failures_witness :
    paidLedger.getAccountState 0 = some { accountID := 0, balance := 40, seq := 1 } ∧
      payment60.wellFormed = true ∧
      paidLedger.applyTransaction { payment60 with id := 90, fromAccountSeq := 3 } =
        Except.ok (TransResult.TR_PREASEQ, paidLedger) ∧
      paidLedger.applyTransaction { payment60 with id := 90, fromAccountSeq := 0 } =
        Except.ok (TransResult.TR_PASTASEQ, paidLedger) ∧
      (payment60.fromAccountSeq = 1 ∧ 40 < payment60.amount) ∧
      paidLedger.applyTransaction payment60 =
        Except.ok (TransResult.TR_INSUFF, paidLedger) :=
  ⟨rfl, rfl,
   (C5_precondition_failures paidLedger
      { payment60 with id := 90, fromAccountSeq := 3 }
      { accountID := 0, balance := 40, seq := 1 } rfl rfl).1 rfl,
   (C5_precondition_failures paidLedger
      { payment60 with id := 90, fromAccountSeq := 0 }
      { accountID := 0, balance := 40, seq := 1 } rfl rfl).2.1 rfl,
   ⟨rfl, by decide⟩,
   (C5_precondition_failures paidLedger payment60
      { accountID := 0, balance := 40, seq := 1 } rfl rfl).2.2 rfl (by decide)⟩

/-! ## `XRPAmount`: helper lemmas -/

theorem int128_eq_self (x : Int) (h : x.natAbs < 2 ^ 128) : int128 x = x := by
  unfold int128
  rw [Nat.mod_eq_of_lt h]
  exact Int.sign_mul_natAbs x

theorem roundedRatio_floor (drops : Int) (num den : Nat) :
    roundedRatio drops num den false = (drops * (num : Int)) / (den : Int) := by
  simp only [roundedRatio, Bool.false_eq_true, if_false]
  exact Rat.floor_intCast_div_natCast _ _

theorem roundedRatio_ceil (drops : Int) (num den : Nat) :
    roundedRatio drops num den true = -((-(drops * (num : Int))) / (den : Int)) := by
  simp only [roundedRatio, if_true]
  rw [← Rat.floor_intCast_div_natCast, Int.cast_neg, neg_div, Int.floor_neg, neg_neg]

theorem neg_ediv_neg_of_dvd (m d : Int) (hd : 0 < d) (h : m % d = 0) :
    -((-m) / d) = m / d := by
  have hm : m = d * (m / d) := by
    have := Int.emod_add_ediv m d
    omega
  have h2 : (-m) / d = -(m / d) ∧ (-m) % d = 0 := by
    rw [Int.ediv_emod_unique hd]
    refine ⟨?_, le_refl _, hd⟩
    rw [mul_neg, ← hm]
    omega
  omega

theorem neg_ediv_neg_of_not_dvd (m d : Int) (hd : 0 < d) (h : m % d ≠ 0) :
    -((-m) / d) = m / d + 1 := by
  have hm := Int.emod_add_ediv m d
  have h0 := Int.emod_nonneg m (ne_of_gt hd)
  have h1 := Int.emod_lt_of_pos m hd
  have h2 : (-m) / d = -(m / d + 1) ∧ (-m) % d = d - m % d := by
    rw [Int.ediv_emod_unique hd]
    refine ⟨?_, by omega, by omega⟩
    rw [mul_neg, mul_add, mul_one]
    omega
  omega

theorem tdiv_of_nonpos (m d : Int) (hm : m ≤ 0) (hd : 0 < d) :
    Int.tdiv m d = -((-m) / d) := by
  have h : Int.tdiv (-m) d = (-m) / d := Int.tdiv_eq_ediv (by omega) (le_of_lt hd)
  rw [Int.neg_tdiv] at h
  omega

theorem tmod_eq_zero_iff (m d : Int) : Int.tmod m d = 0 ↔ m % d = 0 := by
  constructor
  · intro h
    exact Int.emod_eq_zero_of_dvd (Int.dvd_of_tmod_eq_zero h)
  · intro h
    exact Int.tmod_eq_zero_of_dvd (Int.dvd_of_emod_eq_zero h)

theorem mulRatio_product_bound (amt : XRPAmount) (num : Nat)
    (hamt : amt.inRange) (hnum : num < 2 ^ 32) :
    -2 ^ 95 ≤ amt.drops * (num : Int) ∧ amt.drops * (num : Int) ≤ 2 ^ 95 := by
  obtain ⟨hlo, hhi⟩ := hamt
  simp only [int64Min, int64Max] at hlo hhi
  have hn0 : (0 : Int) ≤ (num : Int) := Int.ofNat_nonneg _
  have hn1 : (num : Int) ≤ 2 ^ 32 := by omega
  unfold XRPAmount.drops
  constructor
  · nlinarith
  · nlinarith

theorem int128_of_bound (x : Int) (hlo : -2 ^ 96 ≤ x) (hhi : x ≤ 2 ^ 96) : int128 x = x := by
  apply int128_eq_self
  omega

theorem mulRatio_eq (amt : XRPAmount) (num den : Nat) (roundUp : Bool)
    (hamt : amt.inRange) (hnum : num < 2 ^ 32) (hden : den ≠ 0) :
    mulRatio amt num den roundUp =
      if roundedRatio amt.drops num den roundUp > int64Max then
        Except.error MulRatioError.overflow
      else if roundedRatio amt.drops num den roundUp < int64Min then
        Except.error MulRatioError.underflow
      else
        Except.ok ⟨roundedRatio amt.drops num den roundUp⟩ := by
  obtain ⟨hmlo, hmhi⟩ := mulRatio_product_bound amt num hamt hnum
  have hd : (0 : Int) < (den : Int) := by omega
  have hdrops : int128 amt.drops = amt.drops := by
    obtain ⟨hlo, hhi⟩ := hamt
    simp only [int64Min, int64Max] at hlo hhi
    exact int128_of_bound _ (by unfold XRPAmount.drops; omega) (by unfold XRPAmount.drops; omega)
  have hm : int128 (amt.drops * (num : Int)) = amt.drops * (num : Int) :=
    int128_of_bound _ (by omega) (by omega)
  have hnn : (0 : Int) ≤ (num : Int) := Int.ofNat_nonneg _
  suffices hr :
      (if Int.tmod (amt.drops * (num : Int)) (den : Int) ≠ 0 then
          (if (decide (amt.drops < 0) && !roundUp) = true then
            int128 ((if (!decide (amt.drops < 0) && roundUp) = true then
              int128 (Int.tdiv (amt.drops * (num : Int)) (den : Int) + 1)
              else Int.tdiv (amt.drops * (num : Int)) (den : Int)) - 1)
          else (if (!decide (amt.drops < 0) && roundUp) = true then
              int128 (Int.tdiv (amt.drops * (num : Int)) (den : Int) + 1)
              else Int.tdiv (amt.drops * (num : Int)) (den : Int)))
        else Int.tdiv (amt.drops * (num : Int)) (den : Int)) =
        roundedRatio amt.drops num den roundUp by
    simp only [mulRatio, hden, if_false, hdrops, hm, hr]
  by_cases hneg : amt.drops < 0
  · have hmle : amt.drops * (num : Int) ≤ 0 := Int.mul_nonpos_of_nonpos_of_nonneg (le_of_lt hneg) hnn
    have hq := tdiv_of_nonpos _ _ hmle hd
    have hg0 : 0 ≤ (-(amt.drops * (num : Int))) / (den : Int) := Int.ediv_nonneg (by omega) (le_of_lt hd)
    have hg1 : (-(amt.drops * (num : Int))) / (den : Int) ≤ -(amt.drops * (num : Int)) :=
      Int.ediv_le_self _ (by omega)
    by_cases hrem : (amt.drops * (num : Int)) % (den : Int) = 0
    · have ht : Int.tmod (amt.drops * (num : Int)) (den : Int) = 0 := (tmod_eq_zero_iff _ _).mpr hrem
      simp only [ht, ne_eq, not_true_eq_false, if_false]
      cases roundUp
      · rw [roundedRatio_floor, hq, neg_ediv_neg_of_dvd _ _ hd hrem]
      · rw [roundedRatio_ceil, hq]
    · have ht : Int.tmod (amt.drops * (num : Int)) (den : Int) ≠ 0 :=
        fun h => hrem ((tmod_eq_zero_iff _ _).mp h)
      have hc := neg_ediv_neg_of_not_dvd _ _ hd hrem
      cases roundUp
      · simp only [ht, ne_eq, not_false_eq_true, if_true, hneg, decide_True, Bool.not_true,
          Bool.false_and, Bool.false_eq_true, if_false, Bool.not_false, Bool.and_self]
        rw [int128_of_bound _ (by omega) (by omega), roundedRatio_floor, hq]
        omega
      · simp only [ht, ne_eq, not_false_eq_true, if_true, hneg, decide_True, Bool.not_true,
          Bool.false_and, Bool.false_eq_true, if_false, Bool.and_false]
        rw [roundedRatio_ceil, hq]
  · have hmge : 0 ≤ amt.drops * (num : Int) := Int.mul_nonneg (by omega) hnn
    have hq : Int.tdiv (amt.drops * (num : Int)) (den : Int) =
        (amt.drops * (num : Int)) / (den : Int) := Int.tdiv_eq_ediv hmge (le_of_lt hd)
    have hg0 : 0 ≤ (amt.drops * (num : Int)) / (den : Int) := Int.ediv_nonneg hmge (le_of_lt hd)
    have hg1 : (amt.drops * (num : Int)) / (den : Int) ≤ amt.drops * (num : Int) :=
      Int.ediv_le_self _ hmge
    by_cases hrem : (amt.drops * (num : Int)) % (den : Int) = 0
    · have ht : Int.tmod (amt.drops * (num : Int)) (den : Int) = 0 := (tmod_eq_zero_iff _ _).mpr hrem
      simp only [ht, ne_eq, not_true_eq_false, if_false]
      cases roundUp
      · rw [roundedRatio_floor, hq]
      · rw [roundedRatio_ceil, hq, neg_ediv_neg_of_dvd _ _ hd hrem]
    · have ht : Int.tmod (amt.drops * (num : Int)) (den : Int) ≠ 0 :=
        fun h => hrem ((tmod_eq_zero_iff _ _).mp h)
      have hc := neg_ediv_neg_of_not_dvd _ _ hd hrem
      cases roundUp
      · simp only [ht, ne_eq, not_false_eq_true, if_true, hneg, decide_False, Bool.not_false,
          Bool.true_and, Bool.false_eq_true, if_false, Bool.false_and]
        rw [roundedRatio_floor, hq]
      · simp only [ht, ne_eq, not_false_eq_true, if_true, hneg, decide_False, Bool.not_false,
          Bool.true_and, Bool.false_eq_true, if_false, Bool.false_and, Bool.not_true,
          Bool.and_false]
        rw [int128_of_bound _ (by omega) (by omega), roundedRatio_ceil, hq]
        omega

theorem wrapSigned_eq_self (w : Nat) (hw : 0 < w) (x : Int)
    (hlo : jsonIntMin w ≤ x) (hhi : x ≤ jsonIntMax w) : wrapSigned w x = x := by
  unfold jsonIntMin at hlo
  unfold jsonIntMax at hhi
  unfold wrapSigned
  have hpow : (2 : Int) ^ w = 2 * 2 ^ (w - 1) := by
    obtain ⟨k, rfl⟩ : ∃ k, w = k + 1 := ⟨w - 1, by omega⟩
    simp [pow_succ, mul_comm]
  rw [Int.emod_eq_of_lt (by omega) (by omega)]
  omega

theorem jsonIntMin_le_jsonIntMax (w : Nat) : jsonIntMin w ≤ jsonIntMax w := by
  unfold jsonIntMin jsonIntMax
  have h : (0 : Int) < 2 ^ (w - 1) := by positivity
  omega

theorem roundedRatio_self (drops : Int) (n : Nat) (hn : n ≠ 0) (roundUp : Bool) :
    roundedRatio drops n n roundUp = drops := by
  have hn0 : (n : Int) ≠ 0 := by omega
  cases roundUp
  · rw [roundedRatio_floor, Int.mul_ediv_cancel _ hn0]
  · rw [roundedRatio_ceil, ← Int.neg_mul, Int.mul_ediv_cancel _ hn0, neg_neg]

/-! ## C11: when `mulRatio` throws -/

/-- C11: for every amount, every 32-bit `num`, every `den` and either rounding
mode, `mulRatio` throws the "division by zero" error if and only if `den` is 0;
for `den` not 0 it throws a `std::overflow_error` if and only if the rounded
value of amt*num/den lies outside the signed 64-bit range; and for `den` not 0
and the rounded value inside the range it returns that value. -/
theorem C11_mulRatio_throws_exactly (amt : XRPAmount) (num den : Nat) (roundUp : Bool)
    (hamt : amt.inRange) (hnum : num < 2 ^ 32) :
    (mulRatio amt num den roundUp = Except.error MulRatioError.divisionByZero ↔ den = 0) ∧
      (den ≠ 0 →
        ((∃ e, e.isOverflowError = true ∧ mulRatio amt num den roundUp = Except.error e) ↔
          ¬ (int64Min ≤ roundedRatio amt.drops num den roundUp ∧
              roundedRatio amt.drops num den roundUp ≤ int64Max))) ∧
      (den ≠ 0 →
        int64Min ≤ roundedRatio amt.drops num den roundUp ∧
          roundedRatio amt.drops num den roundUp ≤ int64Max →
        mulRatio amt num den roundUp =
          Except.ok ⟨roundedRatio amt.drops num den roundUp⟩) := by
  refine ⟨?_, ?_, ?_⟩
  · constructor
    · intro h
      by_contra hden
      rw [mulRatio_eq amt num den roundUp hamt hnum hden] at h
      split at h
      · cases h
      · split at h <;> cases h
    · intro h
      simp [mulRatio, h]
  · intro hden
    rw [mulRatio_eq amt num den roundUp hamt hnum hden]
    constructor
    · rintro ⟨e, -, he⟩ ⟨hlo, hhi⟩
      rw [if_neg (not_lt.mpr hhi), if_neg (not_lt.mpr hlo)] at he
      cases he
    · intro hout
      by_cases hhi : roundedRatio amt.drops num den roundUp > int64Max
      · exact ⟨MulRatioError.overflow, rfl, by rw [if_pos hhi]⟩
      · have hlo : roundedRatio amt.drops num den roundUp < int64Min := by
          by_contra hlo
          exact hout ⟨not_lt.mp hlo, not_lt.mp hhi⟩
        exact ⟨MulRatioError.underflow, rfl, by rw [if_neg hhi, if_pos hlo]⟩
  · rintro hden ⟨hlo, hhi⟩
    rw [mulRatio_eq amt num den roundUp hamt hnum hden, if_neg (not_lt.mpr hhi),
      if_neg (not_lt.mpr hlo)]

/-- C11 at three inputs: the amount 7 with `den` 0 throws "division by zero";
the largest amount times 2/1 has the rounded value 2^64 - 2, out of range, and
throws a `std::overflow_error`; the amount -7 times 1/2 rounded down has the
rounded value -4, in range, and is returned. -/
theorem C11_mulRatio_throws_exactly_witness :
    ((XRPAmount.mk 7).inRange ∧ 3 < 2 ^ 32 ∧
        mulRatio ⟨7⟩ 3 0 true = Except.error MulRatioError.divisionByZero) ∧
      ((XRPAmount.mk int64Max).inRange ∧ 2 < 2 ^ 32 ∧ 1 ≠ 0 ∧
        roundedRatio int64Max 2 1 false = 2 ^ 64 - 2 ∧
        ∃ e, e.isOverflowError = true ∧
          mulRatio ⟨int64Max⟩ 2 1 false = Except.error e) ∧
      ((XRPAmount.mk (-7)).inRange ∧ 1 < 2 ^ 32 ∧ 2 ≠ 0 ∧
        roundedRatio (-7) 1 2 false = -4 ∧
        mulRatio ⟨-7⟩ 1 2 false = Except.ok ⟨-4⟩) := by
  have h1 : roundedRatio int64Max 2 1 false = 2 ^ 64 - 2 := by
    rw [roundedRatio_floor]
    decide
  have h2 : roundedRatio (-7) 1 2 false = -4 := by
    rw [roundedRatio_floor]
    decide
  refine ⟨⟨by decide, by decide, ?_⟩, ⟨by decide, by decide, by decide, h1, ?_⟩,
    ⟨by decide, by decide, by decide, h2, ?_⟩⟩
  · exact (C11_mulRatio_throws_exactly ⟨7⟩ 3 0 true (by decide) (by decide)).1.mpr rfl
  · refine ((C11_mulRatio_throws_exactly ⟨int64Max⟩ 2 1 false (by decide)
      (by decide)).2.1 (by decide)).mpr ?_
    show ¬ (int64Min ≤ roundedRatio int64Max 2 1 false ∧
      roundedRatio int64Max 2 1 false ≤ int64Max)
    rw [h1]
    decide
  · have h := (C11_mulRatio_throws_exactly ⟨-7⟩ 1 2 false (by decide) (by decide)).2.2
      (by decide)
    rw [show (XRPAmount.mk (-7)).drops = -7 from rfl, h2] at h
    exact h (by decide)

theorem XRPAmount.ofIntegral_drops_ (x : Int) :
    (XRPAmount.ofIntegral x).drops_ = (x + 2 ^ 63) % 2 ^ 64 - 2 ^ 63 :=
  rfl

theorem XRPAmount.ofIntegral_of_lt (n : Nat) (h : n < 2 ^ 63) :
    (XRPAmount.ofIntegral n).drops_ = n := by
  rw [XRPAmount.ofIntegral_drops_]
  omega

theorem XRPAmount.ofIntegral_of_ge (n : Nat) (hn : n < 2 ^ 64) (h : 2 ^ 63 ≤ n) :
    (XRPAmount.ofIntegral n).drops_ = (n : Int) - 2 ^ 64 := by
  rw [XRPAmount.ofIntegral_drops_]
  omega

theorem XRPAmount.signum_of_neg (a : XRPAmount) (h : a.drops_ < 0) : a.signum = -1 := by
  unfold XRPAmount.signum
  rw [if_pos h]

theorem XRPAmount.signum_nonneg_of_nonneg (a : XRPAmount) (h : 0 ≤ a.drops_) :
    0 ≤ a.signum := by
  unfold XRPAmount.signum
  rw [if_neg (by omega)]
  split <;> decide

theorem XRPAmount.drops_eq (a : XRPAmount) : a.drops = a.drops_ :=
  rfl

/-! ## C12: `signum` and the boolean conversion -/

/-- C12: for every `XRPAmount` a, `a.signum()` is -1 when `a.drops()` is below
0, 0 when it is 0 and 1 when it is above 0, and `a.signum()` differs from 0
exactly when the boolean conversion of a is true. -/
theorem C12_signum_is_sign (a : XRPAmount) :
    (a.drops < 0 → a.signum = -1) ∧
      (a.drops = 0 → a.signum = 0) ∧
      (0 < a.drops → a.signum = 1) ∧
      (a.signum ≠ 0 ↔ a.toBool = true) := by
  unfold XRPAmount.drops XRPAmount.signum XRPAmount.toBool
  refine ⟨?_, ?_, ?_, ?_⟩
  · intro h
    rw [if_pos h]
  · intro h
    simp [h]
  · intro h
    have h0 : a.drops_ ≠ 0 := by omega
    rw [if_neg (by omega)]
    simp [h0]
  · by_cases hneg : a.drops_ < 0
    · have h0 : a.drops_ ≠ 0 := by omega
      simp [hneg, h0]
    · by_cases h0 : a.drops_ = 0
      · simp [h0]
      · simp [hneg, h0]

/-- C12 at the amounts -5, 0 and 5. -/
theorem C12_signum_is_sign_witness :
    ((XRPAmount.mk (-5)).drops < 0 ∧ (XRPAmount.mk (-5)).signum = -1) ∧
      ((XRPAmount.mk 0).drops = 0 ∧ (XRPAmount.mk 0).signum = 0) ∧
      (0 < (XRPAmount.mk 5).drops ∧ (XRPAmount.mk 5).signum = 1) ∧
      ((XRPAmount.mk 5).signum ≠ 0 ∧ (XRPAmount.mk 5).toBool = true) :=
  ⟨⟨by decide, (C12_signum_is_sign ⟨-5⟩).1 (by decide)⟩,
   ⟨rfl, (C12_signum_is_sign ⟨0⟩).2.1 rfl⟩,
   ⟨by decide, (C12_signum_is_sign ⟨5⟩).2.2.1 (by decide)⟩,
   ⟨by decide, (C12_signum_is_sign ⟨5⟩).2.2.2.mp (by decide)⟩⟩

/-! ## C13: multiplication by a 64-bit integer -/

/-- C13, as stated, fails: the amount 2^62 and the integer 4 are both in the
signed 64-bit range, and their product 2^64 reduced modulo 2^64 is 0; the
product does not fit `std::int64_t`, so neither `a * k` nor `k * a` has a
defined value, in particular not the value of 0 drops. -/
theorem C13_overflowing_product_has_no_value :
    (XRPAmount.mk (2 ^ 62)).inRange ∧
      (int64Min ≤ (4 : Int) ∧ (4 : Int) ≤ int64Max) ∧
      wrapInt64 ((XRPAmount.mk (2 ^ 62)).drops * 4) = 0 ∧
      (XRPAmount.mk (2 ^ 62)).mul 4 = none ∧
      XRPAmount.mulLeft 4 ⟨2 ^ 62⟩ = none ∧
      (XRPAmount.mk (2 ^ 62)).mul 4 ≠
        some ⟨wrapInt64 ((XRPAmount.mk (2 ^ 62)).drops * 4)⟩ := by
  have h : (XRPAmount.mk (2 ^ 62)).mul 4 = none := by decide
  refine ⟨by decide, by decide, by decide, h, h, ?_⟩
  rw [h]
  intro hne
  cases hne

/-- C13, amended: for every amount a and every integer k, `k * a` is the same
computation as `a * k`; when `a.drops() * k` lies in the signed 64-bit range,
both have drops equal to `a.drops() * k` (which is then also its value reduced
modulo 2^64); when it does not, the product overflows `std::int64_t` and
neither has a defined value. -/
theorem C13_mul_commutes_in_range (a : XRPAmount) (k : Int) :
    XRPAmount.mulLeft k a = a.mul k ∧
      (int64Min ≤ a.drops * k ∧ a.drops * k ≤ int64Max →
        a.mul k = some ⟨a.drops * k⟩ ∧
          XRPAmount.mulLeft k a = some ⟨a.drops * k⟩ ∧
          wrapInt64 (a.drops * k) = a.drops * k) ∧
      (¬ (int64Min ≤ a.drops * k ∧ a.drops * k ≤ int64Max) →
        a.mul k = none ∧ XRPAmount.mulLeft k a = none) := by
  rw [XRPAmount.drops_eq]
  refine ⟨rfl, ?_, ?_⟩
  · intro h
    have hm : a.mul k = some ⟨a.drops_ * k⟩ := by
      unfold XRPAmount.mul
      rw [if_pos h]
    refine ⟨hm, hm, ?_⟩
    obtain ⟨hlo, hhi⟩ := h
    unfold int64Min at hlo
    unfold int64Max at hhi
    have hw : wrapInt64 (a.drops_ * k) = (a.drops_ * k + 2 ^ 63) % 2 ^ 64 - 2 ^ 63 := rfl
    rw [hw]
    omega
  · intro h
    have hm : a.mul k = none := by
      unfold XRPAmount.mul
      rw [if_neg h]
    exact ⟨hm, hm⟩

/-- C13, amended, at the amount 5 times -3, in range, with -15 drops both ways,
and at the amount 2^62 times 4, out of range, with no value either way. -/
theorem C13_mul_commutes_in_range_witness :
    ((int64Min ≤ (XRPAmount.mk 5).drops * (-3) ∧ (XRPAmount.mk 5).drops * (-3) ≤ int64Max) ∧
        (XRPAmount.mk 5).mul (-3) = some ⟨-15⟩ ∧
        XRPAmount.mulLeft (-3) ⟨5⟩ = some ⟨-15⟩) ∧
      (¬ (int64Min ≤ (XRPAmount.mk (2 ^ 62)).drops * 4 ∧
          (XRPAmount.mk (2 ^ 62)).drops * 4 ≤ int64Max) ∧
        (XRPAmount.mk (2 ^ 62)).mul 4 = none ∧
        XRPAmount.mulLeft 4 ⟨2 ^ 62⟩ = none) :=
  ⟨⟨by decide,
    ((C13_mul_commutes_in_range ⟨5⟩ (-3)).2.1 (by decide)).1,
    ((C13_mul_commutes_in_range ⟨5⟩ (-3)).2.1 (by decide)).2.1⟩,
   ⟨by decide,
    ((C13_mul_commutes_in_range ⟨2 ^ 62⟩ 4).2.2 (by decide)).1,
    ((C13_mul_commutes_in_range ⟨2 ^ 62⟩ 4).2.2 (by decide)).2⟩⟩

/-! ## C14: an amount built from an unsigned 64-bit value -/

/-- C14, as stated, fails: the `XRPAmount` constructed from the unsigned 64-bit
value 2^64 - 1 has `drops()` equal to -1, not to 2^64 - 1, and `signum()` equal
to -1. -/
theorem C14_ofIntegral_uint64_max_is_negative :
    (0 : Int) ≤ 2 ^ 64 - 1 ∧ (2 ^ 64 - 1 : Int) < 2 ^ 64 ∧
      (XRPAmount.ofIntegral (2 ^ 64 - 1)).drops = -1 ∧
      (XRPAmount.ofIntegral (2 ^ 64 - 1)).drops ≠ 2 ^ 64 - 1 ∧
      (XRPAmount.ofIntegral (2 ^ 64 - 1)).signum = -1 ∧
      ¬ (0 ≤ (XRPAmount.ofIntegral (2 ^ 64 - 1)).signum) := by
  have hd : (XRPAmount.ofIntegral (2 ^ 64 - 1)).drops_ = -1 := by
    rw [XRPAmount.ofIntegral_drops_]
    norm_num
  have hs : (XRPAmount.ofIntegral (2 ^ 64 - 1)).signum = -1 :=
    XRPAmount.signum_of_neg _ (by rw [hd]; norm_num)
  unfold XRPAmount.drops
  rw [hs, hd]
  norm_num

/-- C14, amended: for every unsigned 64-bit value n below 2^63, the `XRPAmount`
constructed from n has `drops()` equal to n and `signum()` at least 0; for
every unsigned 64-bit value n from 2^63 on it has `drops()` equal to n - 2^64
and `signum()` equal to -1. -/
theorem C14_ofIntegral_uint64 (n : Nat) (hn : n < 2 ^ 64) :
    (n < 2 ^ 63 →
        (XRPAmount.ofIntegral n).drops = n ∧ 0 ≤ (XRPAmount.ofIntegral n).signum) ∧
      (2 ^ 63 ≤ n →
        (XRPAmount.ofIntegral n).drops = (n : Int) - 2 ^ 64 ∧
          (XRPAmount.ofIntegral n).signum = -1) := by
  rw [XRPAmount.drops_eq]
  constructor
  · intro h
    have hd := XRPAmount.ofIntegral_of_lt n h
    exact ⟨hd, XRPAmount.signum_nonneg_of_nonneg _ (by rw [hd]; omega)⟩
  · intro h
    have hd := XRPAmount.ofIntegral_of_ge n hn h
    exact ⟨hd, XRPAmount.signum_of_neg _ (by rw [hd]; omega)⟩

/-- C14, amended, at the unsigned values 1000 (below 2^63) and 2^63. -/
theorem C14_ofIntegral_uint64_witness :
    (1000 < 2 ^ 64 ∧ 1000 < 2 ^ 63 ∧
        (XRPAmount.ofIntegral (1000 : Nat)).drops = (1000 : Nat) ∧
        0 ≤ (XRPAmount.ofIntegral (1000 : Nat)).signum) ∧
      (2 ^ 63 < 2 ^ 64 ∧ 2 ^ 63 ≤ 2 ^ 63 ∧
        (XRPAmount.ofIntegral ((2 ^ 63 : Nat) : Int)).drops = ((2 ^ 63 : Nat) : Int) - 2 ^ 64 ∧
        (XRPAmount.ofIntegral ((2 ^ 63 : Nat) : Int)).signum = -1) :=
  ⟨⟨by norm_num, by norm_num,
    (C14_ofIntegral_uint64 1000 (by norm_num)).1 (by norm_num)⟩,
   ⟨by norm_num, le_refl _,
    (C14_ofIntegral_uint64 (2 ^ 63) (by norm_num)).2 (le_refl _)⟩⟩

theorem XRPAmount.json_eq_clamp (w : Nat) (hw : 0 < w) (a : XRPAmount) :
    a.json w = max (jsonIntMin w) (min a.drops_ (jsonIntMax w)) := by
  have hmm := jsonIntMin_le_jsonIntMax w
  unfold XRPAmount.json
  by_cases hlo : a.drops_ < jsonIntMin w
  · rw [if_pos hlo]
    omega
  · by_cases hhi : a.drops_ > jsonIntMax w
    · rw [if_neg hlo, if_pos hhi]
      omega
    · rw [if_neg hlo, if_neg hhi, wrapSigned_eq_self w hw _ (by omega) (by omega)]
      omega

/-! ## C15: `mulRatio` rounds the exact ratio -/

/-- C15: for every amount `amt` of any sign, every 32-bit `num` and every
non-zero `den`, the 128-bit product of `amt.drops()` and `num` is the exact
product (it does not wrap), and `mulRatio` returns v exactly when v is the
exact rational amt.drops()*num/den rounded toward positive infinity (`roundUp`
true) or toward negative infinity (`roundUp` false) and that value lies in the
signed 64-bit range. -/
theorem C15_mulRatio_rounds_exact_ratio (amt : XRPAmount) (num den : Nat)
    (roundUp : Bool) (v : XRPAmount)
    (hamt : amt.inRange) (hnum : num < 2 ^ 32) (hden : den ≠ 0) :
    int128 (int128 amt.drops * (num : Int)) = amt.drops * (num : Int) ∧
      (mulRatio amt num den roundUp = Except.ok v ↔
        v.drops = roundedRatio amt.drops num den roundUp ∧
          int64Min ≤ roundedRatio amt.drops num den roundUp ∧
          roundedRatio amt.drops num den roundUp ≤ int64Max) := by
  obtain ⟨hmlo, hmhi⟩ := mulRatio_product_bound amt num hamt hnum
  constructor
  · have hdrops : int128 amt.drops = amt.drops := by
      obtain ⟨hlo, hhi⟩ := hamt
      simp only [int64Min, int64Max] at hlo hhi
      rw [XRPAmount.drops_eq]
      exact int128_of_bound _ (by omega) (by omega)
    rw [hdrops]
    exact int128_of_bound _ (by omega) (by omega)
  · rw [mulRatio_eq amt num den roundUp hamt hnum hden, XRPAmount.drops_eq v]
    by_cases hhi : roundedRatio amt.drops num den roundUp > int64Max
    · rw [if_pos hhi]
      constructor
      · intro h
        cases h
      · rintro ⟨-, -, h⟩
        omega
    · by_cases hlo : roundedRatio amt.drops num den roundUp < int64Min
      · rw [if_neg hhi, if_pos hlo]
        constructor
        · intro h
          cases h
        · rintro ⟨-, h, -⟩
          omega
      · rw [if_neg hhi, if_neg hlo]
        constructor
        · intro h
          injection h with h
          subst h
          exact ⟨rfl, by omega, by omega⟩
        · rintro ⟨h, -, -⟩
          cases v
          simp only at h
          rw [h]

/-- C15 at a negative, a zero and a positive amount: -7 times 1/2 is -3 rounded
up and -4 rounded down, 0 times 5/3 is 0, 7 times 1/2 is 4 rounded up. -/
theorem C15_mulRatio_rounds_exact_ratio_witness :
    ((XRPAmount.mk (-7)).inRange ∧ 1 < 2 ^ 32 ∧ 2 ≠ 0 ∧
        roundedRatio (-7) 1 2 true = -3 ∧ mulRatio ⟨-7⟩ 1 2 true = Except.ok ⟨-3⟩ ∧
        roundedRatio (-7) 1 2 false = -4 ∧ mulRatio ⟨-7⟩ 1 2 false = Except.ok ⟨-4⟩) ∧
      ((XRPAmount.mk 0).inRange ∧ 5 < 2 ^ 32 ∧ 3 ≠ 0 ∧
        roundedRatio 0 5 3 true = 0 ∧ mulRatio ⟨0⟩ 5 3 true = Except.ok ⟨0⟩) ∧
      ((XRPAmount.mk 7).inRange ∧ 1 < 2 ^ 32 ∧ 2 ≠ 0 ∧
        roundedRatio 7 1 2 true = 4 ∧ mulRatio ⟨7⟩ 1 2 true = Except.ok ⟨4⟩) := by
  have h1 : roundedRatio (-7) 1 2 true = -3 := by
    rw [roundedRatio_ceil]
    decide
  have h2 : roundedRatio (-7) 1 2 false = -4 := by
    rw [roundedRatio_floor]
    decide
  have h3 : roundedRatio 0 5 3 true = 0 := by
    rw [roundedRatio_ceil]
    decide
  have h4 : roundedRatio 7 1 2 true = 4 := by
    rw [roundedRatio_ceil]
    decide
  have k1 : (XRPAmount.mk (-3)).drops = roundedRatio (XRPAmount.mk (-7)).drops 1 2 true ∧
      int64Min ≤ roundedRatio (XRPAmount.mk (-7)).drops 1 2 true ∧
      roundedRatio (XRPAmount.mk (-7)).drops 1 2 true ≤ int64Max := by
    show (-3 : Int) = roundedRatio (-7) 1 2 true ∧ int64Min ≤ roundedRatio (-7) 1 2 true ∧
      roundedRatio (-7) 1 2 true ≤ int64Max
    rw [h1]
    decide
  have k2 : (XRPAmount.mk (-4)).drops = roundedRatio (XRPAmount.mk (-7)).drops 1 2 false ∧
      int64Min ≤ roundedRatio (XRPAmount.mk (-7)).drops 1 2 false ∧
      roundedRatio (XRPAmount.mk (-7)).drops 1 2 false ≤ int64Max := by
    show (-4 : Int) = roundedRatio (-7) 1 2 false ∧ int64Min ≤ roundedRatio (-7) 1 2 false ∧
      roundedRatio (-7) 1 2 false ≤ int64Max
    rw [h2]
    decide
  have k3 : (XRPAmount.mk 0).drops = roundedRatio (XRPAmount.mk 0).drops 5 3 true ∧
      int64Min ≤ roundedRatio (XRPAmount.mk 0).drops 5 3 true ∧
      roundedRatio (XRPAmount.mk 0).drops 5 3 true ≤ int64Max := by
    show (0 : Int) = roundedRatio 0 5 3 true ∧ int64Min ≤ roundedRatio 0 5 3 true ∧
      roundedRatio 0 5 3 true ≤ int64Max
    rw [h3]
    decide
  have k4 : (XRPAmount.mk 4).drops = roundedRatio (XRPAmount.mk 7).drops 1 2 true ∧
      int64Min ≤ roundedRatio (XRPAmount.mk 7).drops 1 2 true ∧
      roundedRatio (XRPAmount.mk 7).drops 1 2 true ≤ int64Max := by
    show (4 : Int) = roundedRatio 7 1 2 true ∧ int64Min ≤ roundedRatio 7 1 2 true ∧
      roundedRatio 7 1 2 true ≤ int64Max
    rw [h4]
    decide
  refine ⟨⟨by decide, by decide, by decide, h1, ?_, h2, ?_⟩,
    ⟨by decide, by decide, by decide, h3, ?_⟩,
    ⟨by decide, by decide, by decide, h4, ?_⟩⟩
  · exact (C15_mulRatio_rounds_exact_ratio ⟨-7⟩ 1 2 true ⟨-3⟩ (by decide) (by decide)
      (by decide)).2.mpr k1
  · exact (C15_mulRatio_rounds_exact_ratio ⟨-7⟩ 1 2 false ⟨-4⟩ (by decide) (by decide)
      (by decide)).2.mpr k2
  · exact (C15_mulRatio_rounds_exact_ratio ⟨0⟩ 5 3 true ⟨0⟩ (by decide) (by decide)
      (by decide)).2.mpr k3
  · exact (C15_mulRatio_rounds_exact_ratio ⟨7⟩ 1 2 true ⟨4⟩ (by decide) (by decide)
      (by decide)).2.mpr k4

/-! ## C16: a ratio of one -/

/-- C16: for every `XRPAmount` in the signed 64-bit range, the largest and the
smallest value included, every non-zero 32-bit n and either rounding mode,
`mulRatio (amt, n, n, roundUp)` returns `amt` and does not throw. -/
theorem C16_mulRatio_ratio_of_one (amt : XRPAmount) (n : Nat) (roundUp : Bool)
    (hamt : amt.inRange) (hn : n < 2 ^ 32) (hn0 : n ≠ 0) :
    mulRatio amt n n roundUp = Except.ok amt := by
  rw [mulRatio_eq amt n n roundUp hamt hn hn0, roundedRatio_self _ n hn0]
  obtain ⟨hlo, hhi⟩ := hamt
  rw [XRPAmount.drops_eq, if_neg (by omega), if_neg (by omega)]

/-- C16 at the largest amount with n = 2^32 - 1 rounding up, and at the
smallest amount with n = 1 rounding down. -/
theorem C16_mulRatio_ratio_of_one_witness :
    ((XRPAmount.mk int64Max).inRange ∧ 4294967295 < 2 ^ 32 ∧ 4294967295 ≠ 0 ∧
        mulRatio ⟨int64Max⟩ 4294967295 4294967295 true = Except.ok ⟨int64Max⟩) ∧
      ((XRPAmount.mk int64Min).inRange ∧ 1 < 2 ^ 32 ∧ 1 ≠ 0 ∧
        mulRatio ⟨int64Min⟩ 1 1 false = Except.ok ⟨int64Min⟩) :=
  ⟨⟨by decide, by decide, by decide,
    C16_mulRatio_ratio_of_one ⟨int64Max⟩ 4294967295 true (by decide) (by decide)
      (by decide)⟩,
   ⟨by decide, by decide, by decide,
    C16_mulRatio_ratio_of_one ⟨int64Min⟩ 1 false (by decide) (by decide) (by decide)⟩⟩

/-! ## C17: `json` saturates -/

/-- C17: for a `Json::Int` of w bits (w at least 1) and every `XRPAmount` a,
`a.json()` equals `a.drops()` when that lies between the least and the largest
`Json::Int`, the least `Json::Int` when `a.drops()` is below it and the largest
when `a.drops()` is above it; so the result always lies within the `Json::Int`
range, and it is monotone non-decreasing in `a.drops()`. -/
theorem C17_json_saturates (w : Nat) (hw : 0 < w) (a b : XRPAmount) :
    (jsonIntMin w ≤ a.drops ∧ a.drops ≤ jsonIntMax w → a.json w = a.drops) ∧
      (a.drops < jsonIntMin w → a.json w = jsonIntMin w) ∧
      (jsonIntMax w < a.drops → a.json w = jsonIntMax w) ∧
      (jsonIntMin w ≤ a.json w ∧ a.json w ≤ jsonIntMax w) ∧
      (a.drops ≤ b.drops → a.json w ≤ b.json w) := by
  have hmm := jsonIntMin_le_jsonIntMax w
  rw [XRPAmount.json_eq_clamp w hw a, XRPAmount.json_eq_clamp w hw b,
    XRPAmount.drops_eq a, XRPAmount.drops_eq b]
  refine ⟨?_, ?_, ?_, ?_, ?_⟩
  · intro h
    omega
  · intro h
    omega
  · intro h
    omega
  · omega
  · intro h
    omega

/-- C17 for a `Json::Int` of 32 bits: 2^40 drops give 2147483647, -2^40 drops
give -2147483648, -5 drops give -5, and the results are in that order. -/
theorem C17_json_saturates_witness :
    0 < 32 ∧
      (jsonIntMax 32 < (XRPAmount.mk (2 ^ 40)).drops ∧
        (XRPAmount.mk (2 ^ 40)).json 32 = jsonIntMax 32 ∧ jsonIntMax 32 = 2147483647) ∧
      ((XRPAmount.mk (-2 ^ 40)).drops < jsonIntMin 32 ∧
        (XRPAmount.mk (-2 ^ 40)).json 32 = jsonIntMin 32 ∧ jsonIntMin 32 = -2147483648) ∧
      ((jsonIntMin 32 ≤ (XRPAmount.mk (-5)).drops ∧ (XRPAmount.mk (-5)).drops ≤ jsonIntMax 32) ∧
        (XRPAmount.mk (-5)).json 32 = (XRPAmount.mk (-5)).drops) ∧
      ((XRPAmount.mk (-5)).drops ≤ (XRPAmount.mk (2 ^ 40)).drops ∧
        (XRPAmount.mk (-5)).json 32 ≤ (XRPAmount.mk (2 ^ 40)).json 32) :=
  ⟨by decide,
   ⟨by decide,
    (C17_json_saturates 32 (by decide) ⟨2 ^ 40⟩ ⟨0⟩).2.2.1 (by decide), by decide⟩,
   ⟨by decide,
    (C17_json_saturates 32 (by decide) ⟨-2 ^ 40⟩ ⟨0⟩).2.1 (by decide), by decide⟩,
   ⟨by decide, (C17_json_saturates 32 (by decide) ⟨-5⟩ ⟨0⟩).1 (by decide)⟩,
   ⟨by decide,
    (C17_json_saturates 32 (by decide) ⟨-5⟩ ⟨2 ^ 40⟩).2.2.2.2 (by decide)⟩⟩
